import Mathlib

/-!
Verification of the gallery-pro media viewer core (GalleryDB / GalleryManager /
Gallery / App classes of the main script) against its natural-language
specification.  The JavaScript source is shallowly embedded: every pure
computation becomes a Lean function, DOM-free state mutation becomes explicit
state passing on a `ManagerState` record, and the host capabilities
(permission queries, directory scans, `Math.random` draws, IndexedDB writes,
`URL.revokeObjectURL` calls) are modelled as explicit oracle arguments and
effect lists returned next to the new state.
-/

namespace GalleryPro

/-- One scanned media file, mirroring the object literal pushed by
`Gallery.loadMedia` (`name`, `path`, `url`, `type`, `lastModified`; the raw
`file` blob carries no further information used by the core and is omitted). -/
structure MediaItem where
  name : String
  path : String
  url : String
  mediaType : String
  lastModified : Nat
deriving DecidableEq, Repr

/-- A gallery as held in `GalleryManager.galleries`: the fields set by the
`Gallery` constructor plus the `order` field assigned by the manager. -/
structure Gallery where
  id : Nat
  name : String
  directoryHandle : Nat
  media : List MediaItem
  isShuffled : Bool
  order : Nat
deriving DecidableEq, Repr

/-- The record written by `GalleryDB.saveGallery` (id, name, directoryHandle,
isShuffled, order). -/
structure GalleryRecord where
  id : Nat
  name : String
  directoryHandle : Nat
  isShuffled : Bool
  order : Nat
deriving DecidableEq, Repr

/-- The `galleryData` object that `GalleryDB.saveGallery` persists for a
gallery - a full upsert of all five fields. -/
def Gallery.toRecord (g : Gallery) : GalleryRecord :=
  { id := g.id, name := g.name, directoryHandle := g.directoryHandle,
    isShuffled := g.isShuffled, order := g.order }

/-- A raw record as returned by `GalleryDB.loadGalleries`.  Records written
by older versions of the app may lack `isShuffled` and `order`, which the
loader defaults with `|| false` and `|| 0`; those two fields are therefore
optional here. -/
structure StoredGallery where
  id : Nat
  name : String
  directoryHandle : Nat
  isShuffled : Option Bool
  order : Option Nat
deriving DecidableEq, Repr

/-! ### Permission gate (`GalleryManager.verifyPermission`) -/

/-- Result of a `queryPermission` / `requestPermission` call on a directory
handle, per the File System Access API. -/
inductive PermissionState
  | granted
  | denied
  | prompt
deriving DecidableEq, Repr

/-- A directory handle's permission behaviour: the outcome of `queryPermission`
and of `requestPermission`, as a function of whether the options object carries
`mode: 'readwrite'` (the `withWrite` flag). -/
structure DirectoryPermissionOracle where
  queryPermission : Bool → PermissionState
  requestPermission : Bool → PermissionState

/-- Embedding of `GalleryManager.verifyPermission(directoryHandle, withWrite)`.
The second component counts the `requestPermission` calls made, so that the
one-request contract is visible in the result. -/
def verifyPermission (h : DirectoryPermissionOracle) (withWrite : Bool) : Bool × Nat :=
  if h.queryPermission withWrite = PermissionState.granted then (true, 0)
  else if h.requestPermission withWrite = PermissionState.granted then (true, 1)
  else (false, 1)

/-! ### Filename generation (`App.saveFileToActiveGallery` and helpers) -/

/-- Embedding of `new Date().toISOString().replace(/[:.]/g, '-')`: every colon
and dot of the timestamp string becomes a dash, character by character. -/
def sanitizeTimestamp (iso : String) : String :=
  ⟨iso.data.map (fun c => if c = ':' ∨ c = '.' then '-' else c)⟩

/-- JavaScript `s.startsWith(p)`: `p` is a character-prefix of `s`. -/
def jsStartsWith (s p : String) : Bool := p.data.isPrefixOf s.data

/-- JavaScript `s.indexOf(c) !== -1` / `s.includes(c)` for a one-character
needle: some character of `s` equals `c`. -/
def jsContains (s : String) (c : Char) : Bool := s.data.contains c

/-- Accumulator loop for `jsSplitChar`. -/
def splitCharAux (c : Char) : List Char → List Char → List (List Char)
  | [], acc => [acc.reverse]
  | x :: xs, acc =>
      if x = c then acc.reverse :: splitCharAux c xs []
      else splitCharAux c xs (x :: acc)

/-- JavaScript `s.split(c)` for a one-character separator. -/
def jsSplitChar (s : String) (c : Char) : List String :=
  (splitCharAux c s.data []).map (fun l => ⟨l⟩)

/-- JavaScript `s.toLowerCase()` on the ASCII names handled here. -/
def jsToLower (s : String) : String := ⟨s.data.map Char.toLower⟩

/-- Embedding of `App.getExtensionFromFileName`: `null` when the name is falsy
or contains no dot, otherwise the lowercased substring after the final dot. -/
def getExtensionFromFileName (name : String) : Option String :=
  if name = "" ∨ jsContains name '.' = false then none
  else some (jsToLower ((jsSplitChar name '.').getLastD ""))

/-- The object literal `{ jpeg: 'jpg', png: 'png', ... }` used by
`App.getExtensionFromMime`, with the JavaScript `map[subtype] || subtype`
default folded in (an unmapped subtype maps to itself). -/
def mimeExtMap (subtype : String) : String :=
  match subtype with
  | "jpeg" => "jpg"
  | "png" => "png"
  | "webp" => "webp"
  | "gif" => "gif"
  | "mp4" => "mp4"
  | "webm" => "webm"
  | "x-matroska" => "mkv"
  | "quicktime" => "mov"
  | s => s

/-- Embedding of `App.getExtensionFromMime`: `null` when the MIME string is
falsy or has no slash, otherwise the subtype (cut at a `+`) pushed through
`mimeExtMap`. -/
def getExtensionFromMime (mime : String) : Option String :=
  if mime = "" ∨ jsContains mime '/' = false then none
  else some (mimeExtMap ((jsSplitChar ((jsSplitChar mime '/').getD 1 "") '+').headD ""))

/-- JavaScript `a || b` on the two optional extension results: an absent or
empty (falsy) left operand yields the right operand. -/
def jsStringOr (a b : Option String) : Option String :=
  match a with
  | some s => if s = "" then b else some s
  | none => b

/-- The extension chain `getExtensionFromFileName(file.name) ||
getExtensionFromMime(file.type) || 'bin'` of `App.saveFileToActiveGallery`. -/
def resolveExtension (name mime : String) : String :=
  match jsStringOr (getExtensionFromFileName name) (getExtensionFromMime mime) with
  | none => "bin"
  | some s => if s = "" then "bin" else s

/-- The generated name prefix of `App.saveFileToActiveGallery`: `image` for
`image/*` MIME types, `video` for `video/*`, `file` otherwise. -/
def kindWord (mime : String) : String :=
  if jsStartsWith mime "image/" then "image"
  else if jsStartsWith mime "video/" then "video"
  else "file"

/-- The stored filename built by `App.saveFileToActiveGallery`:
`` `${prefix}${timestamp}.${ext}` `` with the pieces above. -/
def generatedFilename (iso name mime : String) : String :=
  kindWord mime ++ sanitizeTimestamp iso ++ "." ++ resolveExtension name mime

/-! ### Sorting and shuffling

`this.media.sort((a, b) => b.lastModified - a.lastModified)` uses the
built-in array sort, which ECMAScript requires to be stable; the unique
stable sort for that comparator is modelled by Mathlib's stable
`insertionSort` under the reflexive total preorder `mediaDescLE`. -/

/-- The total preorder induced by the comparator
`(a, b) => b.lastModified - a.lastModified`: `a` may stay before `b`
exactly when the comparator is nonpositive. -/
def mediaDescLE (a b : MediaItem) : Prop := b.lastModified ≤ a.lastModified

instance : DecidableRel mediaDescLE :=
  fun a b => Nat.decLe b.lastModified a.lastModified

instance : IsTotal MediaItem mediaDescLE :=
  ⟨fun a b => Nat.le_total b.lastModified a.lastModified⟩

instance : IsTrans MediaItem mediaDescLE :=
  ⟨fun _ _ _ h1 h2 => Nat.le_trans h2 h1⟩

/-- Stable sort of a media list descending by `lastModified`, the model of
`media.sort((a, b) => b.lastModified - a.lastModified)`. -/
def sortByModifiedDesc (l : List MediaItem) : List MediaItem :=
  l.insertionSort mediaDescLE

/-- The in-place swap `[arr[i], arr[j]] = [arr[j], arr[i]]` on a list; out of
range indices leave the list unchanged (they cannot occur in the source's
loops). -/
def listSwap (l : List α) (i j : Nat) : List α :=
  match l[i]?, l[j]? with
  | some x, some y => (l.set i y).set j x
  | _, _ => l

/-- The Fisher-Yates loop body: at fuel `i + 1` swap positions `i + 1` and
`c (i + 1)` (the draw `Math.floor(Math.random() * (i + 2))`), then continue
downward; the loop stops once `i > 0` fails. -/
def fisherYatesAux (c : Nat → Nat) : List α → Nat → List α
  | l, 0 => l
  | l, i + 1 => fisherYatesAux c (listSwap l (i + 1) (c (i + 1))) i

/-- The Fisher-Yates shuffle `for (let i = len - 1; i > 0; i--) ... swap`,
parameterised by the sequence `c` of random draws (`c i` is the draw made
when the loop variable equals `i`). -/
def fisherYates (l : List α) (c : Nat → Nat) : List α :=
  fisherYatesAux c l (l.length - 1)

/-! ### Manager state -/

/-- The mutable fields of `GalleryManager` used by the navigation and
collection logic.  Indices are integers because the source uses `-1` as the
no-selection / no-previous sentinel. -/
structure ManagerState where
  galleries : List Gallery
  activeGalleryIndex : Int
  activeMediaIndex : Int
  isRandomMode : Bool
  previousMediaIndex : Int
deriving Repr

/-- The state set up by the `GalleryManager` constructor. -/
def initialManager : ManagerState :=
  { galleries := [], activeGalleryIndex := -1, activeMediaIndex := 0,
    isRandomMode := false, previousMediaIndex := -1 }

/-- The JavaScript lookup `this.galleries[this.activeGalleryIndex]`:
`undefined` (here `none`) for `-1` or any out-of-range index. -/
def activeGallery (s : ManagerState) : Option Gallery :=
  if 0 ≤ s.activeGalleryIndex then s.galleries[s.activeGalleryIndex.toNat]? else none

/-- Embedding of `GalleryManager.displayMedia(index)`: early return when there
is no active gallery or the index is out of range, otherwise record the new
`activeMediaIndex` (the rest of the method only touches the DOM). -/
def displayMedia (s : ManagerState) (index : Int) : ManagerState :=
  match activeGallery s with
  | none => s
  | some g =>
      if index < 0 ∨ (g.media.length : Int) ≤ index then s
      else { s with activeMediaIndex := index }

/-- Embedding of `GalleryManager.selectGallery(index)`: no-op when out of
bounds, otherwise select the gallery, reset the media index to 0, leave
random mode and clear the one-shot previous index. -/
def selectGallery (s : ManagerState) (index : Int) : ManagerState :=
  if index < 0 ∨ (s.galleries.length : Int) ≤ index then s
  else { s with activeGalleryIndex := index, activeMediaIndex := 0,
                isRandomMode := false, previousMediaIndex := -1 }

/-- Embedding of `App.selectRandomMedia()`.  `draw` is the value produced by
the rejection loop `do { randomIndex = ... } while (randomIndex ===
activeMediaIndex)`; the loop's postcondition (`0 ≤ draw < mediaCount` and
`draw ≠ activeMediaIndex`) is carried as a hypothesis by the theorems. -/
def selectRandomMedia (s : ManagerState) (draw : Int) : ManagerState :=
  match activeGallery s with
  | none => s
  | some g =>
      if g.media.length ≤ 1 then s
      else
        displayMedia
          { s with isRandomMode := true, previousMediaIndex := s.activeMediaIndex }
          draw

/-- Embedding of `App.navigateMedia(direction)`; `draw` feeds
`selectRandomMedia` on the branches that draw a fresh random index. -/
def navigateMedia (s : ManagerState) (direction : Int) (draw : Int) : ManagerState :=
  match activeGallery s with
  | none => s
  | some g =>
      if g.media.length = 0 then s
      else if s.isRandomMode then
        if direction = -1 then
          if s.previousMediaIndex ≠ -1 ∧ s.previousMediaIndex ≠ s.activeMediaIndex then
            displayMedia { s with previousMediaIndex := -1 } s.previousMediaIndex
          else selectRandomMedia s draw
        else selectRandomMedia s draw
      else
        let n0 := s.activeMediaIndex + direction
        let n1 := if n0 < 0 then (g.media.length : Int) - 1 else n0
        let n2 := if (g.media.length : Int) ≤ n1 then 0 else n1
        displayMedia s n2

/-- The update `App.shuffleGallery` applies to the active gallery object:
flip `isShuffled`, then either Fisher-Yates-shuffle the media with the draws
`c` (turning on) or re-sort by `lastModified` descending (turning off). -/
def shuffleToggled (g : Gallery) (c : Nat → Nat) : Gallery :=
  if ¬ g.isShuffled then
    { g with isShuffled := true, media := fisherYates g.media c }
  else
    { g with isShuffled := false, media := sortByModifiedDesc g.media }

/-- Embedding of `App.shuffleGallery()`: early return without an active
gallery or with an empty media list; otherwise apply `shuffleToggled` to the
active gallery, persist its record and display media 0.  The second
component lists the records written by `saveGallery`. -/
def shuffleGallery (s : ManagerState) (c : Nat → Nat) :
    ManagerState × List GalleryRecord :=
  match activeGallery s with
  | none => (s, [])
  | some g =>
      if g.media.length = 0 then (s, [])
      else
        let g' := shuffleToggled g c
        let s' := { s with galleries := s.galleries.set s.activeGalleryIndex.toNat g' }
        (displayMedia s' 0, [g'.toRecord])

/-- Embedding of `GalleryManager.closeGallery(event, index)`: revoke every
media URL of the closed gallery, delete its record, remove it, and reselect.
Returns the new state, the revoked URLs and the deleted record ids. -/
def closeGallery (s : ManagerState) (index : Nat) :
    ManagerState × List String × List Nat :=
  match s.galleries[index]? with
  | none => (s, [], [])
  | some g =>
      let revoked := g.media.map (fun m => m.url)
      let deleted := [g.id]
      let gs := s.galleries.eraseIdx index
      if 0 < gs.length then
        let a :=
          if (index : Int) < s.activeGalleryIndex then s.activeGalleryIndex - 1
          else if (index : Int) = s.activeGalleryIndex then
            min (index : Int) ((gs.length : Int) - 1)
          else s.activeGalleryIndex
        let s' := { s with galleries := gs, activeGalleryIndex := a }
        (selectGallery s' a, revoked, deleted)
      else
        ({ s with galleries := gs, activeGalleryIndex := -1 }, revoked, deleted)

/-- The loop `this.galleries.forEach((g, idx) => { g.order = idx; })` of
`handleTabDrop`, generalised over the starting position. -/
def assignOrders : Nat → List Gallery → List Gallery
  | _, [] => []
  | k, g :: gs => { g with order := k } :: assignOrders (k + 1) gs

/-- Embedding of `GalleryManager.handleTabDrop` for a drop of tab `dragged`
onto tab `target`: when the indices differ, move the gallery (remove, then
insert), adjust `activeGalleryIndex`, reassign every `order` densely and save
every gallery's record.  The second component lists the records written. -/
def handleTabDrop (s : ManagerState) (dragged target : Nat) :
    ManagerState × List GalleryRecord :=
  if dragged ≠ target then
    match s.galleries[dragged]? with
    | none => (s, [])
    | some moved =>
        let gs := (s.galleries.eraseIdx dragged).insertIdx target moved
        let a :=
          if s.activeGalleryIndex = (dragged : Int) then (target : Int)
          else if (dragged : Int) < s.activeGalleryIndex ∧
              s.activeGalleryIndex ≤ (target : Int) then
            s.activeGalleryIndex - 1
          else if s.activeGalleryIndex < (dragged : Int) ∧
              (target : Int) ≤ s.activeGalleryIndex then
            s.activeGalleryIndex + 1
          else s.activeGalleryIndex
        let gs' := assignOrders 0 gs
        ({ s with galleries := gs', activeGalleryIndex := a },
          gs'.map Gallery.toRecord)
  else (s, [])

/-! ### Scanning and loading -/

/-- Embedding of `Gallery.loadMedia`.  `collected` is the list of media
objects successfully read from the recursive scan, in scan order (per-entry
read failures are already dropped by the `try`/`catch` around `getFile`).
The second component is the list of URLs revoked by the method - the source
revokes none: it simply starts from `this.media = []`. -/
def Gallery.loadMedia (g : Gallery) (hasPermission : Bool)
    (collected : List MediaItem) (c : Nat → Nat) : Gallery × List String :=
  if hasPermission then
    let sorted := sortByModifiedDesc collected
    ({ g with media := if g.isShuffled then fisherYates sorted c else sorted }, [])
  else
    ({ g with media := [] }, [])

/-- The preorder of the loader's comparator
`(a, b) => (a.order || 0) - (b.order || 0)`. -/
def storedOrderLE (a b : StoredGallery) : Prop :=
  a.order.getD 0 ≤ b.order.getD 0

instance : DecidableRel storedOrderLE :=
  fun a b => Nat.decLe (a.order.getD 0) (b.order.getD 0)

instance : IsTotal StoredGallery storedOrderLE :=
  ⟨fun a b => Nat.le_total (a.order.getD 0) (b.order.getD 0)⟩

instance : IsTrans StoredGallery storedOrderLE :=
  ⟨fun _ _ _ h1 h2 => Nat.le_trans h1 h2⟩

/-- Stable sort of the stored records ascending by `order || 0`, the model
of `storedGalleries.sort((a, b) => (a.order || 0) - (b.order || 0))`. -/
def sortStored (l : List StoredGallery) : List StoredGallery :=
  l.insertionSort storedOrderLE

/-- Reconstruction of one gallery inside `loadFromStorage`'s loop:
`new Gallery(...)` with `isShuffled = stored.isShuffled || false`,
`order = stored.order || 0`, followed by `loadMedia`. -/
def reconstructGallery (hasPermission : Bool) (r : StoredGallery)
    (collected : List MediaItem) (c : Nat → Nat) : Gallery :=
  let g : Gallery :=
    { id := r.id, name := r.name, directoryHandle := r.directoryHandle,
      media := [], isShuffled := r.isShuffled.getD false, order := r.order.getD 0 }
  (g.loadMedia hasPermission collected c).1

/-- The `for (const storedGallery of storedGalleries)` loop of
`loadFromStorage`: verified records are reconstructed and appended, denied
records are skipped with a warning and the loop continues. -/
def loadLoop (perm : StoredGallery → Bool) (scan : StoredGallery → List MediaItem)
    (choices : StoredGallery → Nat → Nat) : List StoredGallery → List Gallery
  | [] => []
  | r :: rest =>
      if perm r then
        reconstructGallery (perm r) r (scan r) (choices r) ::
          loadLoop perm scan choices rest
      else loadLoop perm scan choices rest

/-- Embedding of `GalleryManager.loadFromStorage` on the freshly constructed
manager: sort the stored records by saved order, reconstruct each record that
passes the permission gate, then select gallery 0 if anything loaded.
`perm` gives the outcome of `verifyPermission` for each record's handle,
`scan` the readable media collected by its scan, `choices` the shuffle draws
used if its `isShuffled` flag is set. -/
def loadFromStorage (stored : List StoredGallery) (perm : StoredGallery → Bool)
    (scan : StoredGallery → List MediaItem)
    (choices : StoredGallery → Nat → Nat) : ManagerState :=
  let gs := loadLoop perm scan choices (sortStored stored)
  let s := { initialManager with galleries := gs }
  if 0 < gs.length then selectGallery s 0 else s

/-! ### General list lemmas -/

theorem perm_cons_set {α : Type _} :
    ∀ (l : List α) (j : Nat) (x y : α), l[j]? = some y →
      (y :: l.set j x).Perm (x :: l)
  | [], j, _, _, h => by simp at h
  | a :: t, 0, x, y, h => by
      simp only [List.getElem?_cons_zero, Option.some.injEq] at h
      subst h
      exact List.Perm.swap _ _ _
  | a :: t, j + 1, x, y, h => by
      simp only [List.getElem?_cons_succ] at h
      have h1 : (a :: t).set (j + 1) x = a :: t.set j x := by simp
      rw [h1]
      exact (List.Perm.swap a y (t.set j x)).trans
        (((perm_cons_set t j x y h).cons a).trans (List.Perm.swap x a t))

theorem set_set_perm {α : Type _} :
    ∀ (l : List α) (i j : Nat) (x y : α), l[i]? = some x → l[j]? = some y →
      ((l.set i y).set j x).Perm l
  | [], i, _, _, _, hx, _ => by simp at hx
  | a :: t, 0, 0, x, y, hx, hy => by
      simp only [List.getElem?_cons_zero, Option.some.injEq] at hx hy
      subst hx; subst hy
      simp
  | a :: t, 0, j + 1, x, y, hx, hy => by
      simp only [List.getElem?_cons_zero, Option.some.injEq,
        List.getElem?_cons_succ] at hx hy
      subst hx
      simpa using perm_cons_set t j a y hy
  | a :: t, i + 1, 0, x, y, hx, hy => by
      simp only [List.getElem?_cons_zero, Option.some.injEq,
        List.getElem?_cons_succ] at hx hy
      subst hy
      simpa using perm_cons_set t i a x hx
  | a :: t, i + 1, j + 1, x, y, hx, hy => by
      simp only [List.getElem?_cons_succ] at hx hy
      simpa using (set_set_perm t i j x y hx hy).cons a

theorem listSwap_perm {α : Type _} (l : List α) (i j : Nat) :
    (listSwap l i j).Perm l := by
  unfold listSwap
  cases hx : l[i]? with
  | none => exact List.Perm.refl l
  | some x =>
      cases hy : l[j]? with
      | none => exact List.Perm.refl l
      | some y => exact set_set_perm l i j x y hx hy

theorem fisherYatesAux_perm {α : Type _} (c : Nat → Nat) :
    ∀ (l : List α) (n : Nat), (fisherYatesAux c l n).Perm l
  | l, 0 => List.Perm.refl l
  | l, n + 1 =>
      (fisherYatesAux_perm c (listSwap l (n + 1) (c (n + 1))) n).trans
        (listSwap_perm l (n + 1) (c (n + 1)))

theorem fisherYates_perm {α : Type _} (l : List α) (c : Nat → Nat) :
    (fisherYates l c).Perm l :=
  fisherYatesAux_perm c l (l.length - 1)

theorem sortByModifiedDesc_perm (l : List MediaItem) :
    (sortByModifiedDesc l).Perm l :=
  List.perm_insertionSort mediaDescLE l

theorem sortByModifiedDesc_sorted (l : List MediaItem) :
    List.Sorted mediaDescLE (sortByModifiedDesc l) :=
  List.sorted_insertionSort mediaDescLE l

theorem sortStored_perm (l : List StoredGallery) :
    (sortStored l).Perm l :=
  List.perm_insertionSort storedOrderLE l

theorem sortStored_sorted (l : List StoredGallery) :
    List.Sorted storedOrderLE (sortStored l) :=
  List.sorted_insertionSort storedOrderLE l

theorem eq_of_perm_sorted_distinct {l₁ l₂ : List MediaItem}
    (hp : l₁.Perm l₂) (hs₁ : List.Sorted mediaDescLE l₁)
    (hs₂ : List.Sorted mediaDescLE l₂)
    (hd : l₁.Pairwise (fun a b => a.lastModified ≠ b.lastModified)) :
    l₁ = l₂ := by
  haveI : IsAntisymm MediaItem
      (fun a b => mediaDescLE a b ∧ a.lastModified ≠ b.lastModified) :=
    ⟨fun a b hab hba => absurd (Nat.le_antisymm hba.1 hab.1) hab.2⟩
  have hd₂ : l₂.Pairwise (fun a b => a.lastModified ≠ b.lastModified) :=
    (hp.pairwise_iff fun h => Ne.symm h).mp hd
  exact List.eq_of_perm_of_sorted hp (hs₁.and hd) (hs₂.and hd₂)

theorem assignOrders_length :
    ∀ (k : Nat) (l : List Gallery), (assignOrders k l).length = l.length
  | _, [] => rfl
  | k, _ :: t => by simp [assignOrders, assignOrders_length (k + 1) t]

theorem assignOrders_getElem? :
    ∀ (k i : Nat) (l : List Gallery),
      (assignOrders k l)[i]? = l[i]?.map (fun g => { g with order := k + i })
  | _, _, [] => by simp [assignOrders]
  | k, 0, g :: t => by simp [assignOrders]
  | k, i + 1, g :: t => by
      simp only [assignOrders, List.getElem?_cons_succ,
        assignOrders_getElem? (k + 1) i t]
      have : k + 1 + i = k + (i + 1) := by omega
      rw [this]

theorem assignOrders_map_order :
    ∀ (k : Nat) (l : List Gallery),
      (assignOrders k l).map (fun g => g.order) = List.range' k l.length
  | _, [] => rfl
  | k, g :: t => by
      simp [assignOrders, assignOrders_map_order (k + 1) t, List.range'_succ]

theorem getElem?_eraseIdx_lt {α : Type _} :
    ∀ (l : List α) (i j : Nat), j < i → (l.eraseIdx i)[j]? = l[j]?
  | [], _, _, _ => by simp [List.eraseIdx]
  | a :: t, i + 1, 0, _ => by simp [List.eraseIdx]
  | a :: t, i + 1, j + 1, h => by
      simp only [List.eraseIdx, List.getElem?_cons_succ]
      exact getElem?_eraseIdx_lt t i j (Nat.lt_of_succ_lt_succ h)

theorem getElem?_eraseIdx_ge {α : Type _} :
    ∀ (l : List α) (i j : Nat), i < l.length → i ≤ j →
      (l.eraseIdx i)[j]? = l[j + 1]?
  | [], _, _, h, _ => by simp at h
  | a :: t, 0, j, _, _ => by simp [List.eraseIdx]
  | a :: t, i + 1, j, h, hij => by
      have hj : j = (j - 1) + 1 := by omega
      rw [hj]
      simp only [List.eraseIdx, List.getElem?_cons_succ]
      exact getElem?_eraseIdx_ge t i (j - 1) (Nat.lt_of_succ_lt_succ h) (by omega)

theorem getElem?_insertIdx_lt {α : Type _} :
    ∀ (l : List α) (n : Nat) (x : α) (j : Nat), j < n →
      (l.insertIdx n x)[j]? = l[j]?
  | [], n, x, j, h => by
      cases n with
      | zero => omega
      | succ m => simp [List.insertIdx]
  | a :: t, n, x, j, h => by
      cases n with
      | zero => omega
      | succ m =>
          cases j with
          | zero => simp [List.insertIdx_succ_cons]
          | succ k =>
              simp only [List.insertIdx_succ_cons, List.getElem?_cons_succ]
              exact getElem?_insertIdx_lt t m x k (Nat.lt_of_succ_lt_succ h)

theorem getElem?_insertIdx_self {α : Type _} :
    ∀ (l : List α) (n : Nat) (x : α), n ≤ l.length →
      (l.insertIdx n x)[n]? = some x
  | l, 0, x, _ => by simp [List.insertIdx]
  | [], n + 1, x, h => by simp at h
  | a :: t, n + 1, x, h => by
      simp only [List.insertIdx_succ_cons, List.getElem?_cons_succ]
      exact getElem?_insertIdx_self t n x (Nat.le_of_succ_le_succ h)

theorem getElem?_insertIdx_succ {α : Type _} :
    ∀ (l : List α) (n : Nat) (x : α) (k : Nat), n ≤ l.length → n ≤ k →
      (l.insertIdx n x)[k + 1]? = l[k]?
  | l, 0, x, k, _, _ => by simp [List.insertIdx]
  | [], n + 1, x, k, h, _ => by simp at h
  | a :: t, n + 1, x, k, h, hk => by
      have hk1 : k = (k - 1) + 1 := by omega
      rw [hk1]
      simp only [List.insertIdx_succ_cons, List.getElem?_cons_succ]
      exact getElem?_insertIdx_succ t n x (k - 1) (Nat.le_of_succ_le_succ h) (by omega)

/-! ### State-operation helper lemmas -/

theorem activeGallery_some {s : ManagerState} {g : Gallery}
    (h : activeGallery s = some g) :
    0 ≤ s.activeGalleryIndex ∧ s.galleries[s.activeGalleryIndex.toNat]? = some g := by
  unfold activeGallery at h
  by_cases h0 : 0 ≤ s.activeGalleryIndex
  · rw [if_pos h0] at h
    exact ⟨h0, h⟩
  · rw [if_neg h0] at h
    exact absurd h (by simp)

theorem activeGallery_congr {s t : ManagerState}
    (h1 : t.galleries = s.galleries)
    (h2 : t.activeGalleryIndex = s.activeGalleryIndex) :
    activeGallery t = activeGallery s := by
  unfold activeGallery
  rw [h1, h2]

theorem displayMedia_eq_of_valid {s : ManagerState} {g : Gallery} {i : Int}
    (hg : activeGallery s = some g) (h0 : 0 ≤ i) (hl : i < (g.media.length : Int)) :
    displayMedia s i = { s with activeMediaIndex := i } := by
  unfold displayMedia
  rw [hg]
  dsimp only
  rw [if_neg (by omega)]

theorem selectRandomMedia_eq {s : ManagerState} {g : Gallery} {j : Int}
    (hg : activeGallery s = some g) (h2 : 2 ≤ g.media.length)
    (hj0 : 0 ≤ j) (hjl : j < (g.media.length : Int)) :
    selectRandomMedia s j =
      { s with isRandomMode := true, previousMediaIndex := s.activeMediaIndex,
               activeMediaIndex := j } := by
  unfold selectRandomMedia
  rw [hg]
  dsimp only
  rw [if_neg (by omega)]
  have hg' : activeGallery
      { s with isRandomMode := true, previousMediaIndex := s.activeMediaIndex } =
      some g := hg
  rw [displayMedia_eq_of_valid hg' hj0 hjl]

/-- Core computation of one `shuffleGallery` call on a state with an active
gallery holding at least one media item. -/
theorem shuffleGallery_run {s : ManagerState} {g : Gallery} (c : Nat → Nat)
    (hg : activeGallery s = some g) (hne : g.media ≠ []) :
    activeGallery (shuffleGallery s c).1 = some (shuffleToggled g c) ∧
    (shuffleGallery s c).2 = [(shuffleToggled g c).toRecord] ∧
    (shuffleGallery s c).1.activeMediaIndex = 0 := by
  obtain ⟨h0, hget⟩ := activeGallery_some hg
  have hlen : g.media.length ≠ 0 := by
    simpa using fun h => hne (List.length_eq_zero.mp h)
  unfold shuffleGallery
  rw [hg]
  dsimp only
  rw [if_neg (by omega)]
  have hidx : s.activeGalleryIndex.toNat < s.galleries.length := by
    rcases List.getElem?_eq_some.mp hget with ⟨h, _⟩
    exact h
  have hgal :
      activeGallery
        { s with galleries :=
            s.galleries.set s.activeGalleryIndex.toNat (shuffleToggled g c) } =
      some (shuffleToggled g c) := by
    unfold activeGallery
    rw [if_pos h0]
    exact List.getElem?_set_self (by simpa using hidx)
  have hmedlen : (shuffleToggled g c).media.length = g.media.length := by
    unfold shuffleToggled
    split
    · simpa using (fisherYates_perm g.media c).length_eq
    · simpa using (sortByModifiedDesc_perm g.media).length_eq
  have hdisp := displayMedia_eq_of_valid (i := 0) hgal (by omega)
    (by rw [hmedlen]; omega)
  refine ⟨?_, ?_, ?_⟩
  · show activeGallery (displayMedia _ 0) = _
    rw [hdisp]
    exact hgal
  · rfl
  · show (displayMedia _ 0).activeMediaIndex = 0
    rw [hdisp]

/-! ### Concrete fixtures used by scenario conjuncts and counterexamples -/

/-- Scenario fixture: media item `A` with `lastModified = 100`. -/
def sampleA : MediaItem :=
  { name := "A", path := "A", url := "uA", mediaType := "image", lastModified := 100 }

/-- Scenario fixture: media item `B` with `lastModified = 300`. -/
def sampleB : MediaItem :=
  { name := "B", path := "B", url := "uB", mediaType := "image", lastModified := 300 }

/-- Scenario fixture: media item `C` with `lastModified = 200`. -/
def sampleC : MediaItem :=
  { name := "C", path := "C", url := "uC", mediaType := "image", lastModified := 200 }

/-- Scenario fixture: an unshuffled gallery about to be scanned. -/
def sampleGallery : Gallery :=
  { id := 1, name := "g", directoryHandle := 0, media := [],
    isShuffled := false, order := 0 }

/-- Fixture for the resource-release claim: a gallery holding one media item
whose content URL is `blob:demo`. -/
def leakGallery : Gallery :=
  { id := 9, name := "leak", directoryHandle := 0,
    media := [{ name := "m", path := "m", url := "blob:demo",
                mediaType := "image", lastModified := 0 }],
    isShuffled := false, order := 0 }

/-! ### Claim theorems -/

/-- C7: `verifyPermission` queries the permission state for the requested
mode and succeeds immediately, with no request, when it is already granted;
otherwise it issues exactly one `requestPermission` and succeeds exactly
when that request is granted.  It is a total boolean-valued function of the
two query outcomes - every failure path resolves to `false`, nothing is
thrown. -/
theorem verifyPermission_spec (h : DirectoryPermissionOracle) (w : Bool) :
    ((verifyPermission h w).1 = true ↔
      (h.queryPermission w = PermissionState.granted ∨
        h.requestPermission w = PermissionState.granted)) ∧
    (h.queryPermission w = PermissionState.granted →
      verifyPermission h w = (true, 0)) ∧
    (h.queryPermission w ≠ PermissionState.granted →
      (verifyPermission h w).2 = 1 ∧
        ((verifyPermission h w).1 = true ↔
          h.requestPermission w = PermissionState.granted)) ∧
    ((verifyPermission h w).1 = true ∨ (verifyPermission h w).1 = false) := by
  unfold verifyPermission
  by_cases hq : h.queryPermission w = PermissionState.granted <;>
    by_cases hr : h.requestPermission w = PermissionState.granted <;>
      simp [hq, hr]

/-- Witness for C7 at a concrete oracle whose query prompts and whose
request grants. -/
theorem verifyPermission_spec_witness :
    (verifyPermission ⟨fun _ => PermissionState.prompt,
        fun _ => PermissionState.granted⟩ true).2 = 1 ∧
    (verifyPermission ⟨fun _ => PermissionState.prompt,
        fun _ => PermissionState.granted⟩ true).1 = true := by
  have h := verifyPermission_spec
    ⟨fun _ => PermissionState.prompt, fun _ => PermissionState.granted⟩ true
  have h1 := h.2.2.1 (by decide)
  exact ⟨h1.1, h1.2.mpr (by decide)⟩

/-- C8: the stored filename of an imported file is the MIME-derived prefix
(`image` for `image/*`, `video` for `video/*`, else `file`), then the ISO
timestamp with every colon and dot replaced by a dash, then a dot, then the
extension resolved from the original name's final dot-suffix, falling back
to the MIME-subtype-to-extension map, falling back to `bin`; in particular a
`video/webm` blob named `clip` (no extension) yields
`video<timestamp>.webm`. -/
theorem generatedFilename_spec (iso name mime : String) :
    (jsStartsWith mime "image/" = true →
      generatedFilename iso name mime =
        "image" ++ sanitizeTimestamp iso ++ "." ++ resolveExtension name mime) ∧
    (jsStartsWith mime "image/" = false → jsStartsWith mime "video/" = true →
      generatedFilename iso name mime =
        "video" ++ sanitizeTimestamp iso ++ "." ++ resolveExtension name mime) ∧
    (jsStartsWith mime "image/" = false → jsStartsWith mime "video/" = false →
      generatedFilename iso name mime =
        "file" ++ sanitizeTimestamp iso ++ "." ++ resolveExtension name mime) ∧
    ((sanitizeTimestamp iso).data =
      iso.data.map (fun c => if c = ':' ∨ c = '.' then '-' else c)) ∧
    (name ≠ "" → jsContains name '.' = true →
      jsToLower ((jsSplitChar name '.').getLastD "") ≠ "" →
      resolveExtension name mime = jsToLower ((jsSplitChar name '.').getLastD "")) ∧
    (getExtensionFromFileName name = none →
      ∀ e, getExtensionFromMime mime = some e → e ≠ "" →
        resolveExtension name mime = e) ∧
    (jsContains name '.' = false → jsContains mime '/' = false →
      resolveExtension name mime = "bin") ∧
    (generatedFilename iso "clip" "video/webm" =
      "video" ++ sanitizeTimestamp iso ++ ".webm") := by
  refine ⟨?_, ?_, ?_, rfl, ?_, ?_, ?_, ?_⟩
  · intro h1
    unfold generatedFilename kindWord
    rw [h1]
    simp
  · intro h1 h2
    unfold generatedFilename kindWord
    rw [h1, h2]
    simp
  · intro h1 h2
    unfold generatedFilename kindWord
    rw [h1, h2]
    simp
  · intro h1 h2 h3
    unfold resolveExtension jsStringOr getExtensionFromFileName
    rw [if_neg (by simp [h1, h2])]
    dsimp only
    rw [if_neg h3]
    dsimp only
    rw [if_neg h3]
  · intro h1 e h2 h3
    unfold resolveExtension jsStringOr
    rw [h1, h2]
    simp [h3]
  · intro h1 h2
    unfold resolveExtension jsStringOr getExtensionFromFileName getExtensionFromMime
    rw [if_pos (Or.inr h1), if_pos (Or.inr h2)]
  · have hext : resolveExtension "clip" "video/webm" = "webm" := by decide
    have hkind : kindWord "video/webm" = "video" := by decide
    unfold generatedFilename
    rw [hext, hkind, String.append_assoc]
    rfl

/-- Witness for C8 at a concrete timestamp: importing a `video/webm` blob
named `clip` on 2024-01-02T03:04:05.678Z stores
`video2024-01-02T03-04-05-678Z.webm`. -/
theorem generatedFilename_spec_witness :
    generatedFilename "2024-01-02T03:04:05.678Z" "clip" "video/webm" =
      "video2024-01-02T03-04-05-678Z.webm" := by
  have h := (generatedFilename_spec "2024-01-02T03:04:05.678Z" "clip" "video/webm").2.2.2.2.2.2.2
  rw [h]
  decide

/-- C3: with permission granted, a scan's media list is the collected
readable entries stably sorted descending by `lastModified` when the
gallery's `isShuffled` flag is false, and the Fisher-Yates shuffle (with
draw sequence `c`) of that sorted list when the flag is true; in both cases
it is a permutation of the collected entries.  Scanning
`[A(100), B(300), C(200)]` unshuffled yields `[B, C, A]`. -/
theorem loadMedia_spec (g : Gallery) (collected : List MediaItem) (c : Nat → Nat) :
    (g.isShuffled = false →
      (g.loadMedia true collected c).1.media = sortByModifiedDesc collected ∧
      List.Sorted mediaDescLE (g.loadMedia true collected c).1.media ∧
      ((g.loadMedia true collected c).1.media).Perm collected) ∧
    (g.isShuffled = true →
      (g.loadMedia true collected c).1.media =
        fisherYates (sortByModifiedDesc collected) c ∧
      ((g.loadMedia true collected c).1.media).Perm collected) ∧
    (sampleGallery.loadMedia true [sampleA, sampleB, sampleC] c).1.media =
      [sampleB, sampleC, sampleA] := by
  refine ⟨?_, ?_, ?_⟩
  · intro h
    unfold Gallery.loadMedia
    rw [h]
    exact ⟨rfl, sortByModifiedDesc_sorted collected, sortByModifiedDesc_perm collected⟩
  · intro h
    unfold Gallery.loadMedia
    rw [h]
    exact ⟨rfl,
      (fisherYates_perm (sortByModifiedDesc collected) c).trans
        (sortByModifiedDesc_perm collected)⟩
  · have hb : sortByModifiedDesc [sampleA, sampleB, sampleC] =
        [sampleB, sampleC, sampleA] := by decide
    simp [Gallery.loadMedia, sampleGallery, hb]

/-- Witness for C3 at a concrete unshuffled gallery and scan. -/
theorem loadMedia_spec_witness :
    (sampleGallery.loadMedia true [sampleA, sampleB, sampleC] (fun _ => 0)).1.media =
      [sampleB, sampleC, sampleA] ∧
    List.Sorted mediaDescLE
      (sampleGallery.loadMedia true [sampleA, sampleB, sampleC] (fun _ => 0)).1.media := by
  have h := loadMedia_spec sampleGallery [sampleA, sampleB, sampleC] (fun _ => 0)
  exact ⟨h.2.2, (h.1 rfl).2.1⟩

/-- C10: toggling shuffle (in either direction) on an active gallery with a
non-empty media list permutes its media - no descriptor is added, dropped or
duplicated - and preserves the gallery's id, name and folder reference. -/
theorem shuffleGallery_preserves (s : ManagerState) (g : Gallery) (c : Nat → Nat)
    (hg : activeGallery s = some g) (hne : g.media ≠ []) :
    ∃ g', activeGallery (shuffleGallery s c).1 = some g' ∧
      (g'.media).Perm g.media ∧ g'.id = g.id ∧ g'.name = g.name ∧
      g'.directoryHandle = g.directoryHandle := by
  obtain ⟨hact, _, _⟩ := shuffleGallery_run c hg hne
  refine ⟨shuffleToggled g c, hact, ?_, ?_, ?_, ?_⟩ <;> unfold shuffleToggled <;> split
  · exact fisherYates_perm g.media c
  · exact sortByModifiedDesc_perm g.media
  all_goals rfl

/-- Witness for C10 on a one-gallery state holding the scenario items. -/
theorem shuffleGallery_preserves_witness :
    ∃ g', activeGallery (shuffleGallery
        ⟨[{ sampleGallery with media := [sampleA, sampleB] }], 0, 0, false, -1⟩
        (fun _ => 0)).1 = some g' ∧
      (g'.media).Perm [sampleA, sampleB] ∧
      g'.id = sampleGallery.id ∧ g'.name = sampleGallery.name ∧
      g'.directoryHandle = sampleGallery.directoryHandle := by
  exact shuffleGallery_preserves
    ⟨[{ sampleGallery with media := [sampleA, sampleB] }], 0, 0, false, -1⟩
    { sampleGallery with media := [sampleA, sampleB] } (fun _ => 0)
    (by decide) (by decide)

/-- C9 counterexample: a rescan does not release the previous media list's
content URLs.  `leakGallery` holds the live URL `blob:demo`, yet the set of
URLs revoked by `Gallery.loadMedia` (the rescan entry point) is empty, so
the URL stays unreleased after the rescan begins. -/
theorem loadMedia_no_revoke_counterexample :
    ¬ ("blob:demo" ∈ (leakGallery.loadMedia true [] (fun _ => 0)).2) := by
  unfold Gallery.loadMedia
  decide

/-- C9 amended: content URLs are released on `closeGallery`, which revokes
exactly the closed gallery's media URLs; a rescan (`Gallery.loadMedia`)
revokes nothing - it merely replaces the media list, so the release-on-rescan
half of the original claim fails. -/
theorem urlRelease_amended (s : ManagerState) (i : Nat) (g : Gallery)
    (hg : s.galleries[i]? = some g) :
    (closeGallery s i).2.1 = g.media.map (fun m => m.url) ∧
    (∀ (g' : Gallery) (p : Bool) (collected : List MediaItem) (c : Nat → Nat),
      (g'.loadMedia p collected c).2 = []) := by
  constructor
  · unfold closeGallery
    rw [hg]
    dsimp only
    split <;> rfl
  · intro g' p collected c
    unfold Gallery.loadMedia
    split <;> rfl

/-- Witness for C9's amended claim on a one-gallery state. -/
theorem urlRelease_amended_witness :
    (closeGallery ⟨[leakGallery], 0, 0, false, -1⟩ 0).2.1 = ["blob:demo"] := by
  have h := urlRelease_amended ⟨[leakGallery], 0, 0, false, -1⟩ 0 leakGallery (by decide)
  rw [h.1]
  decide

theorem selectGallery_keeps (s : ManagerState) (a : Int)
    (h : s.activeGalleryIndex = a) :
    (selectGallery s a).activeGalleryIndex = a := by
  unfold selectGallery
  split
  · exact h
  · rfl

theorem selectGallery_galleries (s : ManagerState) (a : Int) :
    (selectGallery s a).galleries = s.galleries := by
  unfold selectGallery
  split <;> rfl

/-- C4: toggling shuffle on and then off on an active, unshuffled gallery
with non-empty media performs no rescan (`shuffleGallery` only permutes or
re-sorts the in-memory list): afterwards the active gallery's media is
sorted descending by `lastModified` and is a permutation of the original
list, and when the original list was already in that canonical order with
distinct timestamps the round trip restores it exactly.  Each toggle
persists the updated gallery record and resets the displayed index to 0. -/
theorem shuffleGallery_roundTrip (s : ManagerState) (g : Gallery) (c1 c2 : Nat → Nat)
    (hg : activeGallery s = some g) (hshuf : g.isShuffled = false)
    (hne : g.media ≠ []) :
    ∃ g1 g2,
      activeGallery (shuffleGallery s c1).1 = some g1 ∧
      g1.isShuffled = true ∧ g1.media = fisherYates g.media c1 ∧
      (shuffleGallery s c1).2 = [g1.toRecord] ∧
      (shuffleGallery s c1).1.activeMediaIndex = 0 ∧
      activeGallery (shuffleGallery (shuffleGallery s c1).1 c2).1 = some g2 ∧
      g2.isShuffled = false ∧
      g2.media = sortByModifiedDesc (fisherYates g.media c1) ∧
      (shuffleGallery (shuffleGallery s c1).1 c2).2 = [g2.toRecord] ∧
      (shuffleGallery (shuffleGallery s c1).1 c2).1.activeMediaIndex = 0 ∧
      g2.media.Perm g.media ∧ List.Sorted mediaDescLE g2.media ∧
      (List.Sorted mediaDescLE g.media →
        g.media.Pairwise (fun a b => a.lastModified ≠ b.lastModified) →
        g2.media = g.media) := by
  have hg1 : shuffleToggled g c1 =
      { g with isShuffled := true, media := fisherYates g.media c1 } := by
    simp [shuffleToggled, hshuf]
  have h1 := shuffleGallery_run c1 hg hne
  have hne1 : (shuffleToggled g c1).media ≠ [] := by
    rw [hg1]
    dsimp only
    intro h
    exact hne (List.length_eq_zero.mp
      (by rw [← (fisherYates_perm g.media c1).length_eq, h]; rfl))
  have hg2 : shuffleToggled (shuffleToggled g c1) c2 =
      { id := g.id, name := g.name, directoryHandle := g.directoryHandle,
        media := sortByModifiedDesc (fisherYates g.media c1),
        isShuffled := false, order := g.order } := by
    rw [hg1]
    simp [shuffleToggled]
  have h2 := shuffleGallery_run c2 h1.1 hne1
  have hmedia1 : (shuffleToggled g c1).media = fisherYates g.media c1 := by
    rw [hg1]
  have hshuf1 : (shuffleToggled g c1).isShuffled = true := by
    rw [hg1]
  have hmed2 : (shuffleToggled (shuffleToggled g c1) c2).media =
      sortByModifiedDesc (fisherYates g.media c1) := by
    rw [hg2]
  have hshuf2 : (shuffleToggled (shuffleToggled g c1) c2).isShuffled = false := by
    rw [hg2]
  have hperm : (sortByModifiedDesc (fisherYates g.media c1)).Perm g.media :=
    (sortByModifiedDesc_perm (fisherYates g.media c1)).trans
      (fisherYates_perm g.media c1)
  refine ⟨shuffleToggled g c1, shuffleToggled (shuffleToggled g c1) c2,
    h1.1, hshuf1, hmedia1, h1.2.1, h1.2.2, h2.1, hshuf2, hmed2,
    h2.2.1, h2.2.2, ?_, ?_, ?_⟩
  · rw [hmed2]
    exact hperm
  · rw [hmed2]
    exact sortByModifiedDesc_sorted (fisherYates g.media c1)
  · intro hsorted hdistinct
    rw [hmed2]
    refine eq_of_perm_sorted_distinct hperm
      (sortByModifiedDesc_sorted (fisherYates g.media c1)) hsorted ?_
    exact (hperm.pairwise_iff fun h => Ne.symm h).mpr hdistinct

/-- Witness for C4 on a one-gallery state with two media items. -/
theorem shuffleGallery_roundTrip_witness :
    ∃ g1 g2,
      activeGallery (shuffleGallery
        ⟨[{ sampleGallery with media := [sampleB, sampleA] }], 0, 0, false, -1⟩
        (fun _ => 0)).1 = some g1 ∧
      g1.isShuffled = true ∧ g1.media = fisherYates [sampleB, sampleA] (fun _ => 0) ∧
      (shuffleGallery
        ⟨[{ sampleGallery with media := [sampleB, sampleA] }], 0, 0, false, -1⟩
        (fun _ => 0)).2 = [g1.toRecord] ∧
      (shuffleGallery
        ⟨[{ sampleGallery with media := [sampleB, sampleA] }], 0, 0, false, -1⟩
        (fun _ => 0)).1.activeMediaIndex = 0 ∧
      activeGallery (shuffleGallery (shuffleGallery
        ⟨[{ sampleGallery with media := [sampleB, sampleA] }], 0, 0, false, -1⟩
        (fun _ => 0)).1 (fun _ => 0)).1 = some g2 ∧
      g2.isShuffled = false ∧
      g2.media = sortByModifiedDesc (fisherYates [sampleB, sampleA] (fun _ => 0)) ∧
      (shuffleGallery (shuffleGallery
        ⟨[{ sampleGallery with media := [sampleB, sampleA] }], 0, 0, false, -1⟩
        (fun _ => 0)).1 (fun _ => 0)).2 = [g2.toRecord] ∧
      (shuffleGallery (shuffleGallery
        ⟨[{ sampleGallery with media := [sampleB, sampleA] }], 0, 0, false, -1⟩
        (fun _ => 0)).1 (fun _ => 0)).1.activeMediaIndex = 0 ∧
      g2.media.Perm [sampleB, sampleA] ∧ List.Sorted mediaDescLE g2.media ∧
      (List.Sorted mediaDescLE
          ({ sampleGallery with media := [sampleB, sampleA] } : Gallery).media →
        ({ sampleGallery with media := [sampleB, sampleA] } : Gallery).media.Pairwise
          (fun a b => a.lastModified ≠ b.lastModified) →
        g2.media = [sampleB, sampleA]) :=
  shuffleGallery_roundTrip
    ⟨[{ sampleGallery with media := [sampleB, sampleA] }], 0, 0, false, -1⟩
    { sampleGallery with media := [sampleB, sampleA] } (fun _ => 0) (fun _ => 0)
    (by decide) (by decide) (by decide)

/-- C5: `closeGallery(i)` on a collection holding a gallery at index `i`
deletes exactly that gallery's persisted record and shrinks the collection
by one; the new `activeGalleryIndex` is the old one minus 1 when `i` was
below it, `min i (N - 2)` when `i` was the active index and at least one
gallery remains, and `-1` when the collection becomes empty. -/
theorem closeGallery_spec (s : ManagerState) (i : Nat) (g : Gallery)
    (hg : s.galleries[i]? = some g) :
    ((i : Int) < s.activeGalleryIndex →
      s.activeGalleryIndex < (s.galleries.length : Int) →
      (closeGallery s i).1.activeGalleryIndex = s.activeGalleryIndex - 1) ∧
    ((i : Int) = s.activeGalleryIndex → 2 ≤ s.galleries.length →
      (closeGallery s i).1.activeGalleryIndex =
        min (i : Int) ((s.galleries.length : Int) - 2)) ∧
    (s.galleries.length = 1 → (closeGallery s i).1.activeGalleryIndex = -1) ∧
    (closeGallery s i).2.2 = [g.id] ∧
    (closeGallery s i).1.galleries.length = s.galleries.length - 1 := by
  have hi : i < s.galleries.length := (List.getElem?_eq_some.mp hg).1
  have hlen : (s.galleries.eraseIdx i).length = s.galleries.length - 1 :=
    List.length_eraseIdx_of_lt hi
  unfold closeGallery
  rw [hg]
  dsimp only
  refine ⟨?_, ?_, ?_, ?_, ?_⟩
  · intro h1 h2
    rw [if_pos (by omega)]
    dsimp only
    rw [if_pos h1]
    exact selectGallery_keeps _ _ rfl
  · intro h1 h2
    rw [if_pos (by omega)]
    dsimp only
    rw [if_neg (by omega), if_pos h1]
    rw [selectGallery_keeps
      { s with galleries := s.galleries.eraseIdx i,
               activeGalleryIndex :=
                 min (i : Int) (((s.galleries.eraseIdx i).length : Int) - 1) }
      (min (i : Int) (((s.galleries.eraseIdx i).length : Int) - 1)) rfl]
    omega
  · intro h1
    rw [if_neg (by omega)]
  · split <;> rfl
  · split
    · rw [selectGallery_galleries]
      exact hlen
    · exact hlen

/-- Witness for C5: closing the active gallery 0 of a two-gallery collection
reselects index `min 0 0 = 0` and deletes record id 1. -/
theorem closeGallery_spec_witness :
    (closeGallery ⟨[sampleGallery, { sampleGallery with id := 2 }], 0, 0, false, -1⟩
      0).1.activeGalleryIndex = min (0 : Int) ((2 : Int) - 2) ∧
    (closeGallery ⟨[sampleGallery, { sampleGallery with id := 2 }], 0, 0, false, -1⟩
      0).2.2 = [1] := by
  have h := closeGallery_spec
    ⟨[sampleGallery, { sampleGallery with id := 2 }], 0, 0, false, -1⟩ 0
    sampleGallery (by decide)
  exact ⟨h.2.1 (by decide) (by decide), h.2.2.2.1⟩

/-- C2: in Random mode on an active gallery with at least two media items, a
step forward records the pre-jump index into `previousMediaIndex` and jumps
to the drawn index (which the rejection loop keeps in range and distinct
from the current index); the immediately following step backward returns to
the pre-jump index and clears `previousMediaIndex`, whatever the unused draw
was; a second consecutive step backward does not repeat the jump but draws a
fresh random index distinct from the current one; and a step forward in
Random mode is a no-op when the gallery has at most one media item. -/
theorem randomNavigation_spec (s : ManagerState) (g : Gallery) (j : Int)
    (hg : activeGallery s = some g) (h2 : 2 ≤ g.media.length)
    (hrand : s.isRandomMode = true)
    (ha0 : 0 ≤ s.activeMediaIndex)
    (hal : s.activeMediaIndex < (g.media.length : Int))
    (hj0 : 0 ≤ j) (hjl : j < (g.media.length : Int))
    (hjne : j ≠ s.activeMediaIndex) :
    ((navigateMedia s 1 j).activeMediaIndex = j ∧
      (navigateMedia s 1 j).previousMediaIndex = s.activeMediaIndex) ∧
    (∀ j2 : Int,
      (navigateMedia (navigateMedia s 1 j) (-1) j2).activeMediaIndex =
        s.activeMediaIndex ∧
      (navigateMedia (navigateMedia s 1 j) (-1) j2).previousMediaIndex = -1 ∧
      (∀ j3 : Int, 0 ≤ j3 → j3 < (g.media.length : Int) →
        j3 ≠ s.activeMediaIndex →
        (navigateMedia (navigateMedia (navigateMedia s 1 j) (-1) j2)
            (-1) j3).activeMediaIndex = j3 ∧
        (navigateMedia (navigateMedia (navigateMedia s 1 j) (-1) j2)
            (-1) j3).previousMediaIndex = s.activeMediaIndex)) ∧
    (∀ (t : ManagerState) (h : Gallery) (jx : Int), activeGallery t = some h →
      t.isRandomMode = true → h.media.length ≤ 1 → navigateMedia t 1 jx = t) := by
  have hs1 : navigateMedia s 1 j =
      { s with isRandomMode := true, previousMediaIndex := s.activeMediaIndex,
               activeMediaIndex := j } := by
    unfold navigateMedia
    rw [hg]
    dsimp only
    rw [if_neg (by omega), if_pos hrand, if_neg (by omega)]
    exact selectRandomMedia_eq hg h2 hj0 hjl
  have hg1 : activeGallery
      { s with isRandomMode := true, previousMediaIndex := s.activeMediaIndex,
               activeMediaIndex := j } = some g := hg
  have hs2 : ∀ j2 : Int, navigateMedia (navigateMedia s 1 j) (-1) j2 =
      { s with isRandomMode := true, previousMediaIndex := -1,
               activeMediaIndex := s.activeMediaIndex } := by
    intro j2
    rw [hs1]
    unfold navigateMedia
    rw [hg1]
    dsimp only
    rw [if_neg (by omega), if_pos rfl, if_pos rfl, if_pos ⟨by omega, by omega⟩]
    exact displayMedia_eq_of_valid hg ha0 hal
  have hg2 : activeGallery
      { s with isRandomMode := true, previousMediaIndex := -1,
               activeMediaIndex := s.activeMediaIndex } = some g := hg
  refine ⟨?_, ?_, ?_⟩
  · rw [hs1]
    exact ⟨rfl, rfl⟩
  · intro j2
    refine ⟨?_, ?_, ?_⟩
    · rw [hs2 j2]
    · rw [hs2 j2]
    · intro j3 hj3a hj3b _
      rw [hs2 j2]
      unfold navigateMedia
      rw [hg2]
      dsimp only
      rw [if_neg (by omega), if_pos rfl, if_pos rfl, if_neg (by simp)]
      rw [selectRandomMedia_eq hg2 h2 hj3a hj3b]
      exact ⟨rfl, rfl⟩
  · intro t h jx hth htr hlen
    unfold navigateMedia
    rw [hth]
    dsimp only
    by_cases hz : h.media.length = 0
    · rw [if_pos hz]
    · rw [if_neg hz, if_pos htr, if_neg (by omega)]
      unfold selectRandomMedia
      rw [hth]
      dsimp only
      rw [if_pos hlen]

/-- Witness for C2 on a concrete two-item gallery in Random mode at index 0
with draw 1. -/
theorem randomNavigation_spec_witness :
    (navigateMedia ⟨[{ sampleGallery with media := [sampleA, sampleB] }],
        0, 0, true, -1⟩ 1 1).activeMediaIndex = 1 ∧
    (navigateMedia (navigateMedia
        ⟨[{ sampleGallery with media := [sampleA, sampleB] }], 0, 0, true, -1⟩
        1 1) (-1) 0).activeMediaIndex = 0 ∧
    (navigateMedia (navigateMedia
        ⟨[{ sampleGallery with media := [sampleA, sampleB] }], 0, 0, true, -1⟩
        1 1) (-1) 0).previousMediaIndex = -1 := by
  have h := randomNavigation_spec
    ⟨[{ sampleGallery with media := [sampleA, sampleB] }], 0, 0, true, -1⟩
    { sampleGallery with media := [sampleA, sampleB] } 1
    (by decide) (by decide) (by decide) (by decide) (by decide) (by decide)
    (by decide) (by decide)
  exact ⟨h.1.1, (h.2.1 0).1, (h.2.1 0).2.1⟩

theorem loadLoop_eq (perm : StoredGallery → Bool)
    (scan : StoredGallery → List MediaItem)
    (choices : StoredGallery → Nat → Nat) :
    ∀ l : List StoredGallery,
      loadLoop perm scan choices l =
        (l.filter perm).map
          (fun r => reconstructGallery (perm r) r (scan r) (choices r))
  | [] => rfl
  | r :: rest => by
      by_cases h : perm r <;>
        simp [loadLoop, List.filter_cons, h, loadLoop_eq perm scan choices rest]

theorem reconstructGallery_fields (p : Bool) (r : StoredGallery)
    (collected : List MediaItem) (c : Nat → Nat) :
    (reconstructGallery p r collected c).id = r.id ∧
    (reconstructGallery p r collected c).name = r.name ∧
    (reconstructGallery p r collected c).directoryHandle = r.directoryHandle ∧
    (reconstructGallery p r collected c).isShuffled = r.isShuffled.getD false ∧
    (reconstructGallery p r collected c).order = r.order.getD 0 := by
  unfold reconstructGallery Gallery.loadMedia
  split <;> exact ⟨rfl, rfl, rfl, rfl, rfl⟩

/-- C6: `loadFromStorage` processes the persisted records stably sorted
ascending by `order` (a missing order counting as 0), reconstructs exactly
the records whose permission check succeeds - carrying over `isShuffled` and
`order` - and appends them in that order; a denied record is skipped without
aborting the rest (every loaded gallery stems from a granted record and the
granted records all load); if at least one gallery loaded, gallery 0 is
selected, otherwise no gallery is selected. -/
theorem loadFromStorage_spec (stored : List StoredGallery)
    (perm : StoredGallery → Bool) (scan : StoredGallery → List MediaItem)
    (choices : StoredGallery → Nat → Nat) :
    ((loadFromStorage stored perm scan choices).galleries =
      ((sortStored stored).filter perm).map
        (fun r => reconstructGallery (perm r) r (scan r) (choices r))) ∧
    List.Sorted storedOrderLE (sortStored stored) ∧
    (sortStored stored).Perm stored ∧
    (∀ (p : Bool) (r : StoredGallery) collected c,
      (reconstructGallery p r collected c).id = r.id ∧
      (reconstructGallery p r collected c).isShuffled = r.isShuffled.getD false ∧
      (reconstructGallery p r collected c).order = r.order.getD 0) ∧
    (∀ g ∈ (loadFromStorage stored perm scan choices).galleries,
      ∃ r ∈ stored, perm r = true ∧
        g = reconstructGallery (perm r) r (scan r) (choices r)) ∧
    ((loadFromStorage stored perm scan choices).galleries ≠ [] →
      (loadFromStorage stored perm scan choices).activeGalleryIndex = 0 ∧
      (loadFromStorage stored perm scan choices).activeMediaIndex = 0) ∧
    ((loadFromStorage stored perm scan choices).galleries = [] →
      (loadFromStorage stored perm scan choices).activeGalleryIndex = -1) := by
  have hmain : (loadFromStorage stored perm scan choices).galleries =
      ((sortStored stored).filter perm).map
        (fun r => reconstructGallery (perm r) r (scan r) (choices r)) := by
    unfold loadFromStorage
    rw [loadLoop_eq]
    dsimp only
    split
    · rw [selectGallery_galleries]
    · rfl
  refine ⟨hmain, sortStored_sorted stored, sortStored_perm stored,
    ?_, ?_, ?_, ?_⟩
  · intro p r collected c
    have h := reconstructGallery_fields p r collected c
    exact ⟨h.1, h.2.2.2.1, h.2.2.2.2⟩
  · intro g hgmem
    rw [hmain] at hgmem
    rcases List.mem_map.mp hgmem with ⟨r, hrmem, hre⟩
    rcases List.mem_filter.mp hrmem with ⟨hrs, hrp⟩
    exact ⟨r, (sortStored_perm stored).mem_iff.mp hrs, hrp, hre.symm⟩
  · intro hne
    rw [hmain] at hne
    have hl := List.length_pos.mpr hne
    unfold loadFromStorage
    rw [loadLoop_eq]
    dsimp only
    rw [if_pos hl]
    unfold selectGallery
    rw [if_neg (by dsimp only; omega)]
    exact ⟨rfl, rfl⟩
  · intro hnil
    rw [hmain] at hnil
    unfold loadFromStorage
    rw [loadLoop_eq]
    dsimp only
    rw [if_neg (by rw [hnil]; simp)]
    rfl

/-- Witness for C6: two stored records, the one with id 2 denied; the
loader selects gallery 0 after loading the granted record. -/
theorem loadFromStorage_spec_witness :
    (loadFromStorage [⟨1, "a", 0, some true, some 1⟩, ⟨2, "b", 0, none, none⟩]
        (fun r => r.id == 1) (fun _ => []) (fun _ _ => 0)).activeGalleryIndex = 0 ∧
    (loadFromStorage [⟨1, "a", 0, some true, some 1⟩, ⟨2, "b", 0, none, none⟩]
        (fun r => r.id == 1) (fun _ => []) (fun _ _ => 0)).activeMediaIndex = 0 := by
  have h := loadFromStorage_spec
    [⟨1, "a", 0, some true, some 1⟩, ⟨2, "b", 0, none, none⟩]
    (fun r => r.id == 1) (fun _ => []) (fun _ _ => 0)
  exact h.2.2.2.2.2.1 (by decide)

/-- C1: a drag-reorder that actually moves a gallery (`dragged ≠ target`,
both valid tab indices) leaves the `order` fields a dense `0..N-1` sequence
matching each gallery's position, keeps the collection's length, persists
every gallery's record, and adjusts `activeGalleryIndex` so that it still
denotes the gallery that was active before the move (now carrying its new
`order`). -/
theorem handleTabDrop_spec (s : ManagerState) (d t : Nat) (g : Gallery)
    (hdt : d ≠ t) (hd : s.galleries[d]? = some g) (ht : t < s.galleries.length)
    (ha0 : 0 ≤ s.activeGalleryIndex)
    (hal : s.activeGalleryIndex < (s.galleries.length : Int)) :
    ((handleTabDrop s d t).1.galleries.map (fun x => x.order) =
      List.range (handleTabDrop s d t).1.galleries.length) ∧
    ((handleTabDrop s d t).1.galleries.length = s.galleries.length) ∧
    ((handleTabDrop s d t).2 =
      (handleTabDrop s d t).1.galleries.map Gallery.toRecord) ∧
    (∀ g' ∈ (handleTabDrop s d t).1.galleries,
      g'.toRecord ∈ (handleTabDrop s d t).2) ∧
    (∃ k : Nat, (handleTabDrop s d t).1.activeGalleryIndex = (k : Int) ∧
      (handleTabDrop s d t).1.galleries[k]? =
        (s.galleries[s.activeGalleryIndex.toNat]?).map
          (fun x => { x with order := k })) := by
  have hdn : d < s.galleries.length := (List.getElem?_eq_some.mp hd).1
  have herlen : (s.galleries.eraseIdx d).length = s.galleries.length - 1 :=
    List.length_eraseIdx_of_lt hdn
  have htle : t ≤ (s.galleries.eraseIdx d).length := by omega
  have hglen : ((s.galleries.eraseIdx d).insertIdx t g).length =
      s.galleries.length := by
    rw [List.length_insertIdx t _ htle]
    omega
  unfold handleTabDrop
  rw [if_pos hdt, hd]
  dsimp only
  refine ⟨?_, ?_, rfl, ?_, ?_⟩
  · rw [assignOrders_map_order, assignOrders_length, List.range_eq_range']
  · rw [assignOrders_length, hglen]
  · intro g' hmem
    exact List.mem_map_of_mem Gallery.toRecord hmem
  · by_cases h1 : s.activeGalleryIndex = (d : Int)
    · refine ⟨t, ?_, ?_⟩
      · rw [if_pos h1]
      · have had : s.activeGalleryIndex.toNat = d := by omega
        rw [assignOrders_getElem?, getElem?_insertIdx_self _ _ _ htle, had, hd]
        simp
    · rw [if_neg h1]
      by_cases h2 : (d : Int) < s.activeGalleryIndex ∧
          s.activeGalleryIndex ≤ (t : Int)
      · refine ⟨s.activeGalleryIndex.toNat - 1, ?_, ?_⟩
        · rw [if_pos h2]
          omega
        · have hlt : s.activeGalleryIndex.toNat - 1 < t := by omega
          have hge : d ≤ s.activeGalleryIndex.toNat - 1 := by omega
          have hplus : s.activeGalleryIndex.toNat - 1 + 1 =
              s.activeGalleryIndex.toNat := by omega
          rw [assignOrders_getElem?,
            getElem?_insertIdx_lt _ _ _ _ hlt,
            getElem?_eraseIdx_ge _ _ _ hdn hge, hplus]
          simp
      · rw [if_neg h2]
        by_cases h3 : s.activeGalleryIndex < (d : Int) ∧
            (t : Int) ≤ s.activeGalleryIndex
        · refine ⟨s.activeGalleryIndex.toNat + 1, ?_, ?_⟩
          · rw [if_pos h3]
            omega
          · have hta : t ≤ s.activeGalleryIndex.toNat := by omega
            have hlt : s.activeGalleryIndex.toNat < d := by omega
            rw [assignOrders_getElem?,
              getElem?_insertIdx_succ _ _ _ _ htle hta,
              getElem?_eraseIdx_lt _ _ _ hlt]
            simp
        · rw [if_neg h3]
          refine ⟨s.activeGalleryIndex.toNat, by omega, ?_⟩
          by_cases h5 : s.activeGalleryIndex.toNat < d
          · have hlt : s.activeGalleryIndex.toNat < t := by omega
            rw [assignOrders_getElem?,
              getElem?_insertIdx_lt _ _ _ _ hlt,
              getElem?_eraseIdx_lt _ _ _ h5]
            simp
          · have hdlt : d < s.activeGalleryIndex.toNat := by omega
            have hta : t ≤ s.activeGalleryIndex.toNat - 1 := by omega
            have hge : d ≤ s.activeGalleryIndex.toNat - 1 := by omega
            have hplus : s.activeGalleryIndex.toNat - 1 + 1 =
                s.activeGalleryIndex.toNat := by omega
            rw [assignOrders_getElem?, ← hplus,
              getElem?_insertIdx_succ _ _ _ _ htle hta,
              getElem?_eraseIdx_ge _ _ _ hdn hge, hplus]
            simp

/-- Witness for C1: dragging tab 0 onto tab 2 in a three-gallery collection
whose active gallery sits at index 1. -/
theorem handleTabDrop_spec_witness :
    ((handleTabDrop
        ⟨[sampleGallery, { sampleGallery with id := 2 },
          { sampleGallery with id := 3 }], 1, 0, false, -1⟩ 0 2).1.galleries.map
      (fun x => x.order) = List.range 3) ∧
    (∃ k : Nat, (handleTabDrop
        ⟨[sampleGallery, { sampleGallery with id := 2 },
          { sampleGallery with id := 3 }], 1, 0, false, -1⟩ 0 2).1.activeGalleryIndex =
          (k : Int) ∧
      (handleTabDrop
        ⟨[sampleGallery, { sampleGallery with id := 2 },
          { sampleGallery with id := 3 }], 1, 0, false, -1⟩ 0 2).1.galleries[k]? =
        some { sampleGallery with id := 2, order := k }) := by
  have h := handleTabDrop_spec
    ⟨[sampleGallery, { sampleGallery with id := 2 },
      { sampleGallery with id := 3 }], 1, 0, false, -1⟩ 0 2 sampleGallery
    (by decide) (by decide) (by decide) (by decide) (by decide)
  refine ⟨?_, ?_⟩
  · rw [h.1, h.2.1]
    rfl
  · rcases h.2.2.2.2 with ⟨k, hk1, hk2⟩
    exact ⟨k, hk1, by rw [hk2]; rfl⟩

end GalleryPro
